import Mathlib

/-!
Shallow embedding of the Uptime-Monitor worker core
(`src/worker/src/cert_logic.js` and the domain/cert metadata updater
`src/域名/证书信息更新逻辑`), together with proofs of the spec claims.

Conventions:
* timestamps are modelled as `Int` milliseconds (`Date.now()` /
  `new Date(s).getTime()`);
* nullable database columns and JS `null`/falsy-string fields are `Option`;
* external I/O (HTTP fetch, WebCrypto) is modelled by explicit oracle
  parameters: a probe outcome value, a certificate-query function, an
  HMAC function.
-/

namespace UptimeMonitor

/-- Monitor status, the `status` column: `'UP' | 'RETRYING' | 'DOWN'`. -/
inductive Status where
  | UP
  | RETRYING
  | DOWN
deriving DecidableEq, Repr

/-- The mutable state-machine part of a monitor row: `status` and
`retry_count`. -/
structure MachineState where
  status : Status
  retry_count : Nat
deriving DecidableEq, Repr

/-- An alert dispatched by `performCheck` via `sendDingTalkAlert`. -/
inductive Alert where
  | down (reason : String)
  | recovery (latencyMs : Nat)
deriving DecidableEq, Repr

/-- The state-machine block of `performCheck`
(`src/worker/src/cert_logic.js` lines 269–303): given the current
`status`/`retry_count` and the probe outcome `isFail`, compute the new
state and the list of alerts sent (in order). -/
def stepMachine (s : MachineState) (isFail : Bool) (reason : String)
    (latencyMs : Nat) : MachineState × List Alert :=
  if isFail then
    match s.status with
    | .UP => (⟨.RETRYING, 1⟩, [])
    | .RETRYING =>
        if s.retry_count < 3 then
          (⟨.RETRYING, s.retry_count + 1⟩, [])
        else
          (⟨.DOWN, s.retry_count⟩, [.down reason])
    | .DOWN => (⟨.DOWN, s.retry_count⟩, [])
  else
    match s.status with
    | .DOWN => (⟨.UP, 0⟩, [.recovery latencyMs])
    | _ => (⟨.UP, 0⟩, [])

/-- Run the state machine over a sequence of probe outcomes
(`true` = failed probe), discarding alerts.  Reason and latency do not
influence the state transition, so they are fixed arbitrarily. -/
def runMachine (s : MachineState) : List Bool → MachineState
  | [] => s
  | b :: rest => runMachine (stepMachine s b "" 0).1 rest

/-- The scheduling-relevant fields of a monitor row.  `last_check` is the
parsed `new Date(monitor.last_check).getTime()` in ms (`none` = SQL NULL),
`interval` is the configured polling interval in seconds (`none` = NULL). -/
structure MonitorSchedule where
  status : Status
  last_check : Option Int
  interval : Option Nat
deriving DecidableEq, Repr

/-- `isTimeToCheck` (`src/worker/src/cert_logic.js` lines 199–207):
a `RETRYING` monitor is always due; otherwise due when
`now - lastCheck >= (interval || 300) * 1000`, with a NULL `last_check`
read as epoch 0 and a falsy (NULL or 0) `interval` defaulted to 300. -/
def isTimeToCheck (m : MonitorSchedule) (now : Int) : Bool :=
  if m.status = .RETRYING then true
  else
    let lastCheck : Int := match m.last_check with | some t => t | none => 0
    let intervalMs : Int :=
      (match m.interval with | some i => if i = 0 then 300 else i | none => 300) * 1000
    decide (now - lastCheck ≥ intervalMs)

/-- The metadata-refresh scheduling decision inside `performCheck`
(`src/worker/src/cert_logic.js` lines 232–241).  It is only reached in the
`response.ok` branch (before the keyword check); `lastInfoCheck` is
`monitor.check_info_status` parsed to ms (`none` = NULL, read as 0).  The
source condition is literally `if (true || Date.now() - lastInfoCheck >
86400000)` — the `true ||` is a debug override left in the code (its
comment says it is temporary). -/
def metadataRefreshScheduled (responseOk : Bool) (nowMs : Int)
    (lastInfoCheck : Option Int) : Bool :=
  responseOk &&
    (true ||
      decide (nowMs - (match lastInfoCheck with | some t => t | none => 0) > 86400000))

/-- Substring search on character lists (every list contains the empty
pattern). -/
def containsSub (pat : List Char) : List Char → Bool
  | [] => pat.isEmpty
  | c :: rest => pat.isPrefixOf (c :: rest) || containsSub pat rest

/-- JS `String.prototype.includes`: substring containment (always true for
the empty pattern). -/
def strIncludes (s pat : String) : Bool := containsSub pat.toList s.toList

/-- JS `domain.split('.')` on the character list of the hostname. -/
def splitDot : List Char → List (List Char)
  | [] => [[]]
  | c :: rest =>
      if c = '.' then [] :: splitDot rest
      else
        match splitDot rest with
        | [] => [[c]]
        | w :: ws => (c :: w) :: ws

/-- JS `parts.join('.')`. -/
def joinDot : List (List Char) → List Char
  | [] => []
  | [w] => w
  | w :: ws => w ++ '.' :: joinDot ws

/-- Outcome of the `fetch` call in `performCheck`: either the request
resolved with an HTTP status and body text, or it (or the body read)
threw with an error message (`e.message || ''`). -/
inductive ProbeOutcome where
  | response (status : Nat) (body : String)
  | thrown (message : String)
deriving DecidableEq, Repr

/-- The classification fields of a probe's `CheckResult` as written to the
`logs` table: `status_code`, `is_fail`, `reason` (latency is wall-clock
time, outside the embedding). -/
structure CheckResult where
  status_code : Nat
  is_fail : Bool
  reason : String
deriving DecidableEq, Repr

/-- `response.ok` per the fetch standard: status in the range 200–299. -/
def responseOk (status : Nat) : Bool :=
  decide (200 ≤ status ∧ status ≤ 299)

/-- The failure-classification block of `performCheck`
(`src/worker/src/cert_logic.js` lines 209–265), as a pure function of the
probe outcome and the monitor's configured `keyword` (`none` = NULL).
Mirrors the source in order: non-ok status → `HTTP <status>`; ok status
with a configured keyword missing from the body → keyword failure;
a thrown error → `status 0` with SSL / timeout / raw-message triage. -/
def classifyProbe (outcome : ProbeOutcome) (keyword : Option String) : CheckResult :=
  match outcome with
  | .response status body =>
      if !responseOk status then
        ⟨status, true, "HTTP " ++ toString status⟩
      else
        match keyword with
        | some kw =>
            if !strIncludes body kw then
              ⟨status, true, "Keyword \"" ++ kw ++ "\" not found"⟩
            else ⟨status, false, ""⟩
        | none => ⟨status, false, ""⟩
  | .thrown msg =>
      if strIncludes msg "handshake" || strIncludes msg "certificate" ||
         strIncludes msg "SSL" || strIncludes msg "TLS" then
        ⟨0, true, "SSL Error: " ++ msg⟩
      else if strIncludes msg "time" || strIncludes msg "timeout" then
        ⟨0, true, "Timeout"⟩
      else
        ⟨0, true, if msg.isEmpty then "Network Error" else msg⟩

/-- The option bag passed to `fetch`.  Fields mirror the properties the
source ever sets; `timeoutMs` stands for any request-timeout mechanism the
fetch API accepts (a `signal`/timeout option) — no call in the source sets
one. -/
structure FetchOptions where
  method : Option String
  headers : List (String × String)
  cfCacheTtl : Option Nat
  cfCacheEverything : Option Bool
  body : Option String
  timeoutMs : Option Nat
deriving DecidableEq, Repr

/-- Options of the probe request in `performCheck`
(`src/worker/src/cert_logic.js` lines 216–224):
`{ method: monitor.method || 'GET', headers: { 'User-Agent': ... },
cf: { cacheTtl: 0, cacheEverything: false } }`. -/
def probeFetchOptions (monitorMethod : Option String) : FetchOptions :=
  { method := some (match monitorMethod with
      | some m => if m.isEmpty then "GET" else m
      | none => "GET")
    headers := [("User-Agent", "Uptime-Monitor/1.0")]
    cfCacheTtl := some 0
    cfCacheEverything := some false
    body := none
    timeoutMs := none }

/-- Options of the crt.sh lookup request in `fetchCerts`
(`src/域名/证书信息更新逻辑` lines 15–17): a browser User-Agent header
only. -/
def certFetchOptions : FetchOptions :=
  { method := none
    headers := [("User-Agent", "Mozilla/5.0 (Macintosh; Intel Mac OS X 10_15_7) AppleWebKit/537.36 (KHTML, like Gecko) Chrome/120.0.0.0 Safari/537.36")]
    cfCacheTtl := none
    cfCacheEverything := none
    body := none
    timeoutMs := none }

/-- Options of the RDAP lookup request (`src/域名/证书信息更新逻辑` line 65):
a bare `fetch(url)` with no options at all. -/
def rdapFetchOptions : FetchOptions :=
  { method := none
    headers := []
    cfCacheTtl := none
    cfCacheEverything := none
    body := none
    timeoutMs := none }

/-- Options of the alert webhook POST in `sendDingTalkAlert`
(`src/worker/src/cert_logic.js` lines 352–357). -/
def alertFetchOptions (payload : String) : FetchOptions :=
  { method := some "POST"
    headers := [("Content-Type", "application/json")]
    cfCacheTtl := none
    cfCacheEverything := none
    body := some payload
    timeoutMs := none }

/-- One crt.sh certificate record; `not_after` is the expiry as
`new Date(r.not_after).getTime()` in ms (the value the source compares
and stores). -/
structure CertRecord where
  not_after : Int
  common_name : String
deriving DecidableEq, Repr

/-- `domain.split('.')` then `parts.slice(parts.length - 2).join('.')`:
the last two labels of the hostname
(`src/域名/证书信息更新逻辑` lines 40–41). -/
def rootDomainOf (domain : String) : String :=
  let parts := splitDot domain.toList
  String.mk (joinDot (parts.drop (parts.length - 2)))

/-- The cascading certificate query of `updateDomainCertInfo`
(`src/域名/证书信息更新逻辑` lines 35–51).  `query` is the guarded
`fetchCerts` oracle: for any search string it yields the parsed record
list (empty on any HTTP or parse failure).  When the direct query is
empty and the hostname has more than two labels, the root domain and the
`%.`-prefixed wildcard form are queried and any records found are
concatenated onto the (empty) accumulator. -/
def cascadeCerts (query : String → List CertRecord) (domain : String) :
    List CertRecord :=
  let certs := query domain
  if certs.length = 0 ∧ (splitDot domain.toList).length > 2 then
    let rootDomain := rootDomainOf domain
    let rootCerts := query rootDomain
    let certs := if rootCerts.length > 0 then certs ++ rootCerts else certs
    let wildCerts := query ("%." ++ rootDomain)
    if wildCerts.length > 0 then certs ++ wildCerts else certs
  else certs

/-- The JS sort comparator `(a, b) => new Date(b.not_after).getTime() -
new Date(a.not_after).getTime()`: `a` sorts before `b` when `a.not_after`
is the later date. -/
def laterNotAfter (a b : CertRecord) : Bool :=
  decide (b.not_after ≤ a.not_after)

/-- `certs.sort(laterNotAfter)[0]` (`src/域名/证书信息更新逻辑` line 54):
the head of the list sorted descending by `not_after`, `none` when the
list is empty. -/
def selectLatestCert (certs : List CertRecord) : Option CertRecord :=
  (certs.mergeSort laterNotAfter).head?

/-- Certificate-expiry half of `updateDomainCertInfo`
(`src/域名/证书信息更新逻辑` lines 35–57): run the cascade, and if any
records were accumulated take the `not_after` of the latest one. -/
def certExpiryOf (query : String → List CertRecord) (domain : String) :
    Option Int :=
  let certs := cascadeCerts query domain
  if certs.length > 0 then (selectLatestCert certs).map (·.not_after)
  else none

/-- One RDAP event: `{ eventAction, eventDate }`, the date as ms. -/
structure RdapEvent where
  eventAction : String
  eventDate : Int
deriving DecidableEq, Repr

/-- The RDAP half of `updateDomainCertInfo`
(`src/域名/证书信息更新逻辑` lines 62–76): `rdap` is `none` when the
request failed, was non-ok, or did not parse; otherwise the `events`
array (`rdapData.events || []`).  The first event whose `eventAction`
contains `"expiration"` supplies the domain expiry. -/
def domainExpiryOf (rdap : Option (List RdapEvent)) : Option Int :=
  match rdap with
  | none => none
  | some events =>
      (events.find? (fun e => strIncludes e.eventAction "expiration")).map
        (·.eventDate)

/-- The two nullable metadata columns of a monitor row. -/
structure TargetMeta where
  cert_expiry : Option Int
  domain_expiry : Option Int
deriving DecidableEq, Repr

/-- The database-write tail of `updateDomainCertInfo`
(`src/域名/证书信息更新逻辑` lines 78–84): when at least one of the two
looked-up expiries is non-null, one `UPDATE monitors SET cert_expiry = ?,
domain_expiry = ?` runs, binding both looked-up values; otherwise no
write happens.  Returns the resulting stored columns and whether the
write ran.  The whole function body is wrapped in `try`/`catch`, so it
never raises; this embedding is total. -/
def updateDomainCertInfoWrite (prior : TargetMeta)
    (certExpiry domainExpiry : Option Int) : TargetMeta × Bool :=
  if certExpiry.isSome || domainExpiry.isSome then
    ({ cert_expiry := certExpiry, domain_expiry := domainExpiry }, true)
  else (prior, false)

/-- Full `updateDomainCertInfo` data flow: cascade lookup for the
certificate expiry, RDAP lookup for the domain expiry, then the guarded
write. -/
def updateDomainCertInfo (query : String → List CertRecord)
    (rdap : Option (List RdapEvent)) (domain : String) (prior : TargetMeta) :
    TargetMeta × Bool :=
  updateDomainCertInfoWrite prior (certExpiryOf query domain) (domainExpiryOf rdap)

namespace Crypto

/-!
Executable model of the WebCrypto primitive the source invokes:
`crypto.subtle.importKey('raw', key, { name: 'HMAC', hash: 'SHA-256' })`
followed by `crypto.subtle.sign('HMAC', key, data)` — i.e. HMAC-SHA256
(FIPS 180-4 / RFC 2104).  Bytes are `Nat < 256`, words are `Nat < 2^32`
with explicit `% 2^32` where overflow matters.
-/

/-- `2^32`, the word modulus. -/
def M32 : Nat := 4294967296

/-- Bitwise complement on 32-bit words. -/
def not32 (x : Nat) : Nat := x ^^^ 4294967295

/-- Right rotation of a 32-bit word. -/
def rotr (n x : Nat) : Nat := ((x >>> n) ||| (x <<< (32 - n))) % M32

/-- The 64 SHA-256 round constants (in decimal). -/
def K : List Nat :=
  [1116352408, 1899447441, 3049323471, 3921009573, 961987163,
   1508970993, 2453635748, 2870763221, 3624381080, 310598401,
   607225278, 1426881987, 1925078388, 2162078206, 2614888103,
   3248222580, 3835390401, 4022224774, 264347078, 604807628,
   770255983, 1249150122, 1555081692, 1996064986, 2554220882,
   2821834349, 2952996808, 3210313671, 3336571891, 3584528711,
   113926993, 338241895, 666307205, 773529912, 1294757372,
   1396182291, 1695183700, 1986661051, 2177026350, 2456956037,
   2730485921, 2820302411, 3259730800, 3345764771, 3516065817,
   3600352804, 4094571909, 275423344, 430227734, 506948616,
   659060556, 883997877, 958139571, 1322822218, 1537002063,
   1747873779, 1955562222, 2024104815, 2227730452, 2361852424,
   2428436474, 2756734187, 3204031479, 3329325298]

/-- Big-endian 8-byte encoding of a length. -/
def be64 (n : Nat) : List Nat :=
  [(n >>> 56) % 256, (n >>> 48) % 256, (n >>> 40) % 256, (n >>> 32) % 256,
   (n >>> 24) % 256, (n >>> 16) % 256, (n >>> 8) % 256, n % 256]

/-- Big-endian 4-byte encoding of a word. -/
def be32 (n : Nat) : List Nat :=
  [(n >>> 24) % 256, (n >>> 16) % 256, (n >>> 8) % 256, n % 256]

/-- SHA-256 padding: `0x80`, zeros to 56 mod 64, then the 64-bit bit
length. -/
def padMessage (msg : List Nat) : List Nat :=
  let padZeros := (119 - (msg.length % 64)) % 64
  msg ++ [128] ++ List.replicate padZeros 0 ++ be64 (8 * msg.length)

/-- Group bytes into big-endian 32-bit words. -/
def bytesToWords : List Nat → List Nat
  | a :: b :: c :: d :: rest =>
      ((a <<< 24) ||| (b <<< 16) ||| (c <<< 8) ||| d) :: bytesToWords rest
  | _ => []

/-- Split a word list into 16-word blocks. -/
def chunk16 (l : List Nat) : List (List Nat) :=
  if h : l = [] then [] else l.take 16 :: chunk16 (l.drop 16)
termination_by l.length
decreasing_by
  simp only [List.length_drop]
  have : 0 < l.length := List.length_pos.mpr h
  omega

/-- SHA-256 σ₀. -/
def smallSigma0 (x : Nat) : Nat := (rotr 7 x) ^^^ (rotr 18 x) ^^^ (x >>> 3)

/-- SHA-256 σ₁. -/
def smallSigma1 (x : Nat) : Nat := (rotr 17 x) ^^^ (rotr 19 x) ^^^ (x >>> 10)

/-- SHA-256 Σ₀. -/
def bigSigma0 (x : Nat) : Nat := (rotr 2 x) ^^^ (rotr 13 x) ^^^ (rotr 22 x)

/-- SHA-256 Σ₁. -/
def bigSigma1 (x : Nat) : Nat := (rotr 6 x) ^^^ (rotr 11 x) ^^^ (rotr 25 x)

/-- SHA-256 choice function. -/
def chFun (x y z : Nat) : Nat := (x &&& y) ^^^ (not32 x &&& z)

/-- SHA-256 majority function. -/
def majFun (x y z : Nat) : Nat := (x &&& y) ^^^ (x &&& z) ^^^ (y &&& z)

/-- The eight 32-bit hash state words. -/
structure Hash8 where
  h0 : Nat
  h1 : Nat
  h2 : Nat
  h3 : Nat
  h4 : Nat
  h5 : Nat
  h6 : Nat
  h7 : Nat
deriving DecidableEq, Repr

/-- The SHA-256 initial hash value (in decimal). -/
def initHash : Hash8 :=
  ⟨1779033703, 3144134277, 1013904242, 2773480762,
   1359893119, 2600822924, 528734635, 1541459225⟩

/-- Extend a 16-word block to the 64-word message schedule. -/
def extendSchedule (block : List Nat) : Array Nat :=
  (List.range 48).foldl (fun w i =>
    w.push ((smallSigma1 (w.getD (i + 14) 0) + w.getD (i + 9) 0 +
             smallSigma0 (w.getD (i + 1) 0) + w.getD i 0) % M32)) block.toArray

/-- One SHA-256 compression over a 16-word block. -/
def compressBlock (hs : Hash8) (block : List Nat) : Hash8 :=
  let w := extendSchedule block
  let st := (List.range 64).foldl (fun (st : Hash8) i =>
    let t1 := (st.h7 + bigSigma1 st.h4 + chFun st.h4 st.h5 st.h6 +
               K.getD i 0 + w.getD i 0) % M32
    let t2 := (bigSigma0 st.h0 + majFun st.h0 st.h1 st.h2) % M32
    ⟨(t1 + t2) % M32, st.h0, st.h1, st.h2, (st.h3 + t1) % M32,
     st.h4, st.h5, st.h6⟩) hs
  ⟨(hs.h0 + st.h0) % M32, (hs.h1 + st.h1) % M32, (hs.h2 + st.h2) % M32,
   (hs.h3 + st.h3) % M32, (hs.h4 + st.h4) % M32, (hs.h5 + st.h5) % M32,
   (hs.h6 + st.h6) % M32, (hs.h7 + st.h7) % M32⟩

/-- SHA-256 of a byte list (FIPS 180-4); validated against the standard
test vectors for `""`, `"abc"` and the 56-byte vector. -/
def sha256 (msg : List Nat) : List Nat :=
  let blocks := chunk16 (bytesToWords (padMessage msg))
  let hs := blocks.foldl compressBlock initHash
  be32 hs.h0 ++ be32 hs.h1 ++ be32 hs.h2 ++ be32 hs.h3 ++
  be32 hs.h4 ++ be32 hs.h5 ++ be32 hs.h6 ++ be32 hs.h7

/-- HMAC-SHA256 (RFC 2104); validated against the RFC 4231 test
vectors. -/
def hmacSha256 (key msg : List Nat) : List Nat :=
  let k1 := if key.length > 64 then sha256 key else key
  let k2 := k1 ++ List.replicate (64 - k1.length) 0
  let ipadKey := k2.map (fun b => b ^^^ 0x36)
  let opadKey := k2.map (fun b => b ^^^ 0x5c)
  sha256 (opadKey ++ sha256 (ipadKey ++ msg))

end Crypto

/-- UTF-8 encoding of a string (`new TextEncoder().encode(s)`), as a byte
list. -/
def utf8Bytes (s : String) : List Nat := s.toUTF8.toList.map (·.toNat)

/-- The standard Base64 alphabet. -/
def base64Chars : List Char :=
  "ABCDEFGHIJKLMNOPQRSTUVWXYZabcdefghijklmnopqrstuvwxyz0123456789+/".toList

/-- Base64 digit for a 6-bit value. -/
def b64c (n : Nat) : Char := base64Chars.getD n '='

/-- `btoa(String.fromCharCode(...bytes))`: Base64 encoding of a byte
list, with `=` padding; validated against RFC 4648 test values. -/
def base64Encode : List Nat → String
  | [] => ""
  | [a] =>
      String.mk [b64c (a >>> 2), b64c ((a % 4) <<< 4), '=', '=']
  | [a, b] =>
      String.mk [b64c (a >>> 2), b64c (((a % 4) <<< 4) ||| (b >>> 4)),
                 b64c ((b % 16) <<< 2), '=']
  | a :: b :: c :: rest =>
      String.mk [b64c (a >>> 2), b64c (((a % 4) <<< 4) ||| (b >>> 4)),
                 b64c (((b % 16) <<< 2) ||| (c >>> 6)), b64c (c % 64)] ++
      base64Encode rest

/-- The upper-case hexadecimal digits. -/
def hexDigitsUpper : List Char := "0123456789ABCDEF".toList

/-- The characters JS `encodeURIComponent` leaves unescaped:
`A–Z a–z 0–9 - _ . ! ~ * ' ( )` (written by code point). -/
def isUnreservedURIChar (c : Char) : Bool :=
  let n := c.toNat
  decide ((65 ≤ n ∧ n ≤ 90) ∨ (97 ≤ n ∧ n ≤ 122) ∨ (48 ≤ n ∧ n ≤ 57) ∨
    n = 45 ∨ n = 95 ∨ n = 46 ∨ n = 33 ∨ n = 126 ∨ n = 42 ∨ n = 39 ∨
    n = 40 ∨ n = 41)

/-- Percent-escape one character as the `%XX` codes of its UTF-8 bytes. -/
def percentEscape (c : Char) : List Char :=
  ((String.singleton c).toUTF8.toList.map (·.toNat)).foldr (fun b acc =>
    '%' :: hexDigitsUpper.getD (b / 16) '0' :: hexDigitsUpper.getD (b % 16) '0' :: acc) []

/-- JS `encodeURIComponent`. -/
def encodeURIComponent (s : String) : String :=
  String.mk (s.toList.foldr (fun c acc =>
    if isUnreservedURIChar c then c :: acc else percentEscape c ++ acc) [])

/-- The fixed DingTalk webhook base endpoint in `sendDingTalkAlert`. -/
def DINGTALK_WEBHOOK_BASE : String := "https://oapi.dingtalk.com/robot/send"

/-- The signing block of `sendDingTalkAlert`
(`src/worker/src/cert_logic.js` lines 327–341): `stringToSign =
`"${timestamp}\n${secret}"`; HMAC-SHA256 keyed by the UTF-8 bytes of
`secret` over the UTF-8 bytes of `stringToSign`; `btoa` the raw
signature bytes; `encodeURIComponent` the Base64 string. -/
def dingTalkSign (secret : String) (timestampMs : Int) : String :=
  let stringToSign := toString timestampMs ++ "\n" ++ secret
  let signature := Crypto.hmacSha256 (utf8Bytes secret) (utf8Bytes stringToSign)
  let signBase64 := base64Encode signature
  encodeURIComponent signBase64

/-- The webhook URL built by `sendDingTalkAlert`
(`src/worker/src/cert_logic.js` line 343). -/
def dingTalkWebhookUrl (accessToken secret : String) (timestampMs : Int) :
    String :=
  DINGTALK_WEBHOOK_BASE ++ "?access_token=" ++ accessToken ++
    "&timestamp=" ++ toString timestampMs ++ "&sign=" ++
    dingTalkSign secret timestampMs

/-- The signing pipeline as the spec documents it (§4.4 steps 2–5),
written from the spec's words for comparison with the source embedding:
`stringToSign = timestamp + "\n" + secret`; HMAC-SHA256 of `stringToSign`
keyed by the UTF-8 encoding of `secret`; Base64-encode the raw byte
signature; percent-encode the Base64 string. -/
def specSignPipeline (secret : String) (timestampMs : Int) : String :=
  encodeURIComponent (base64Encode (Crypto.hmacSha256 (utf8Bytes secret)
    (utf8Bytes (toString timestampMs ++ "\n" ++ secret))))

/-- The inductive invariant of the check state machine: `UP` carries
retry count 0, `RETRYING` carries 1–3, `DOWN` carries 3. -/
def MachineInv (s : MachineState) : Prop :=
  (s.status = .UP → s.retry_count = 0) ∧
  (s.status = .RETRYING → 1 ≤ s.retry_count ∧ s.retry_count ≤ 3) ∧
  (s.status = .DOWN → s.retry_count = 3)

/-- The concrete certificate-transparency oracle of the spec's cascade
example: zero records for `sub.example.com`, two records at
`example.com`, one wildcard record at `%.example.com`. -/
def exampleCertQuery (s : String) : List CertRecord :=
  if s = "example.com" then
    [⟨100, "example.com"⟩, ⟨200, "www.example.com"⟩]
  else if s = "%.example.com" then [⟨300, "*.example.com"⟩]
  else []

/-!  ## Theorems  -/

/-- Helper: one step of the check state machine preserves `MachineInv`. -/
theorem stepMachine_preserves_inv (s : MachineState) (b : Bool) (r : String)
    (l : Nat) (h : MachineInv s) : MachineInv (stepMachine s b r l).1 := by
  obtain ⟨st, c⟩ := s
  obtain ⟨h1, h2, h3⟩ := h
  cases st <;> cases b <;>
    simp_all [stepMachine, MachineInv] <;>
    split <;> simp_all <;> omega

/-- Helper: `runMachine` preserves `MachineInv`. -/
theorem runMachine_preserves_inv (outcomes : List Bool) (s : MachineState)
    (h : MachineInv s) : MachineInv (runMachine s outcomes) := by
  induction outcomes generalizing s with
  | nil => exact h
  | cons b rest ih =>
      exact ih _ (stepMachine_preserves_inv s b "" 0 h)

/-- C1: `performCheck` advances the state machine exactly per the §4.1
table — for every current retry count, failure reason and latency:
UP+success → UP(0), no alert; UP+failure → RETRYING(1), no alert;
RETRYING+success → UP(0), no alert; RETRYING+failure with count < 3 →
RETRYING(count+1), no alert; RETRYING+failure with count = 3 → DOWN with
exactly one DOWN alert; DOWN+failure → DOWN, count unchanged, no alert;
DOWN+success → UP(0) with exactly one recovery alert. -/
theorem performCheck_state_table (c : Nat) (reason : String) (lat : Nat) :
    stepMachine ⟨.UP, c⟩ false reason lat = (⟨.UP, 0⟩, []) ∧
    stepMachine ⟨.UP, c⟩ true reason lat = (⟨.RETRYING, 1⟩, []) ∧
    stepMachine ⟨.RETRYING, c⟩ false reason lat = (⟨.UP, 0⟩, []) ∧
    (c < 3 →
      stepMachine ⟨.RETRYING, c⟩ true reason lat = (⟨.RETRYING, c + 1⟩, [])) ∧
    (c = 3 →
      stepMachine ⟨.RETRYING, c⟩ true reason lat =
        (⟨.DOWN, c⟩, [.down reason])) ∧
    stepMachine ⟨.DOWN, c⟩ true reason lat = (⟨.DOWN, c⟩, []) ∧
    stepMachine ⟨.DOWN, c⟩ false reason lat = (⟨.UP, 0⟩, [.recovery lat]) := by
  refine ⟨rfl, rfl, rfl, fun h => ?_, fun h => ?_, rfl, rfl⟩
  · simp [stepMachine, h]
  · subst h
    simp [stepMachine]

/-- Witness for C1: the table rows with a hypothesis, instantiated at
retry counts 2 and 3. -/
theorem performCheck_state_table_witness :
    stepMachine ⟨.RETRYING, 2⟩ true "HTTP 500" 10 = (⟨.RETRYING, 3⟩, []) ∧
    stepMachine ⟨.RETRYING, 3⟩ true "HTTP 500" 10 =
      (⟨.DOWN, 3⟩, [.down "HTTP 500"]) :=
  ⟨(performCheck_state_table 2 "HTTP 500" 10).2.2.2.1 (by decide),
   (performCheck_state_table 3 "HTTP 500" 10).2.2.2.2.1 rfl⟩

/-- Counterexample for C3: the claimed invariant "`retry_count` is
nonzero only while `status == RETRYING`" fails on the code — four
consecutive failures from UP(0) reach DOWN with `retry_count = 3`. -/
theorem machine_invariant_counterexample :
    ¬ (∀ outcomes : List Bool,
        ((runMachine ⟨.UP, 0⟩ outcomes).status = .UP →
          (runMachine ⟨.UP, 0⟩ outcomes).retry_count = 0) ∧
        ((runMachine ⟨.UP, 0⟩ outcomes).retry_count ≠ 0 →
          (runMachine ⟨.UP, 0⟩ outcomes).status = .RETRYING)) := by
  intro h
  have h2 := (h [true, true, true, true]).2 (by decide)
  exact absurd h2 (by decide)

/-- C3 (amended): for every state reachable from UP(0), `retry_count = 0`
whenever `status = UP`, and a nonzero `retry_count` implies the status is
RETRYING or DOWN (a reachable DOWN state keeps `retry_count = 3`). -/
theorem machine_invariant_amended (outcomes : List Bool) :
    ((runMachine ⟨.UP, 0⟩ outcomes).status = .UP →
      (runMachine ⟨.UP, 0⟩ outcomes).retry_count = 0) ∧
    ((runMachine ⟨.UP, 0⟩ outcomes).retry_count ≠ 0 →
      (runMachine ⟨.UP, 0⟩ outcomes).status = .RETRYING ∨
      (runMachine ⟨.UP, 0⟩ outcomes).status = .DOWN) := by
  have hinv : MachineInv (runMachine ⟨.UP, 0⟩ outcomes) :=
    runMachine_preserves_inv outcomes ⟨.UP, 0⟩ (by simp [MachineInv])
  obtain ⟨h1, h2, h3⟩ := hinv
  refine ⟨h1, fun hc => ?_⟩
  cases hst : (runMachine ⟨.UP, 0⟩ outcomes).status with
  | UP => exact absurd (h1 hst) hc
  | RETRYING => exact Or.inl rfl
  | DOWN => exact Or.inr rfl

/-- Witness for C3 (amended): instantiated on the empty outcome sequence
(status UP) and on a single failure (status RETRYING). -/
theorem machine_invariant_amended_witness :
    (runMachine ⟨.UP, 0⟩ []).retry_count = 0 ∧
    ((runMachine ⟨.UP, 0⟩ [true]).status = .RETRYING ∨
      (runMachine ⟨.UP, 0⟩ [true]).status = .DOWN) :=
  ⟨(machine_invariant_amended []).1 (by decide),
   (machine_invariant_amended [true]).2 (by decide)⟩

/-- C6: `isTimeToCheck` returns true for every RETRYING target regardless
of elapsed time; for a target in UP or DOWN with a recorded `last_check`
and a nonzero configured interval (the CRUD layer stores `interval || 300`,
so persisted intervals are nonzero) it returns true iff
`now - last_check >= interval_seconds * 1000`. -/
theorem isTimeToCheck_dueness (m : MonitorSchedule) (now t : Int) (i : Nat) :
    (m.status = .RETRYING → isTimeToCheck m now = true) ∧
    ((m.status = .UP ∨ m.status = .DOWN) → m.last_check = some t →
      m.interval = some i → i ≠ 0 →
      (isTimeToCheck m now = true ↔ now - t ≥ (i : Int) * 1000)) := by
  obtain ⟨st, lc, iv⟩ := m
  constructor
  · intro h
    simp only at h
    subst h
    simp [isTimeToCheck]
  · intro hst hlc hiv hi
    simp only at hlc hiv
    subst hlc hiv
    have hne : st ≠ .RETRYING := by
      rcases hst with h | h <;> simp only at h <;> subst h <;> simp
    simp [isTimeToCheck, hne, hi]

/-- Witness for C6: a RETRYING target checked 1 s after `last_check` with
a 300 s interval is due; an UP target with a 60 s interval is due exactly
60 000 ms after `last_check`. -/
theorem isTimeToCheck_dueness_witness :
    isTimeToCheck ⟨.RETRYING, some 0, some 300⟩ 1000 = true ∧
    isTimeToCheck ⟨.UP, some 0, some 60⟩ 60000 = true ∧
    isTimeToCheck ⟨.UP, some 0, some 60⟩ 59999 = false := by
  refine ⟨(isTimeToCheck_dueness ⟨.RETRYING, some 0, some 300⟩ 1000 0 300).1 rfl,
    ((isTimeToCheck_dueness ⟨.UP, some 0, some 60⟩ 60000 0 60).2
      (Or.inl rfl) rfl rfl (by decide)).mpr (by decide), ?_⟩
  have h := ((isTimeToCheck_dueness ⟨.UP, some 0, some 60⟩ 59999 0 60).2
    (Or.inl rfl) rfl rfl (by decide))
  cases hb : isTimeToCheck ⟨.UP, some 0, some 60⟩ 59999 with
  | false => rfl
  | true => exact absurd (h.mp hb) (by decide)

/-- C2 (code divergence): `performCheck` schedules a metadata refresh on
a successful probe even when the 24 h cooldown has not elapsed — here
`now = lastInfoCheck` (0 ms elapsed) and the scheduling condition still
evaluates true, because of the `true ||` debug override at line 236 of
`src/worker/src/cert_logic.js` (its own comment calls it a temporary
forced update). -/
theorem metadataRefresh_cooldown_ignored :
    metadataRefreshScheduled true 1700000000000 (some 1700000000000) = true ∧
    ¬ ((1700000000000 : Int) - 1700000000000 > 86400000) := by
  exact ⟨rfl, by decide⟩

/-- Counterexample for C4: the probe's `fetch` options carry no timeout
(and no abort signal) — the claim that the probe executor invokes its
outbound request with a fixed timeout is false. -/
theorem probe_timeout_counterexample :
    ((probeFetchOptions (some "GET")).timeoutMs).isSome = false := rfl

/-- C4 (amended): none of the outbound requests issued by the core — the
probe fetch, the crt.sh certificate lookup, the RDAP lookup, and the
alert webhook POST — configures a request timeout; boundedness of
external I/O is left entirely to the platform runtime. -/
theorem fetch_options_no_timeout (m : Option String) (payload : String) :
    (probeFetchOptions m).timeoutMs = none ∧
    certFetchOptions.timeoutMs = none ∧
    rdapFetchOptions.timeoutMs = none ∧
    (alertFetchOptions payload).timeoutMs = none :=
  ⟨rfl, rfl, rfl, rfl⟩

/-- Helper: the head of the list sorted descending by `not_after` carries
the maximum `not_after` of the list (and is `none` exactly on the empty
list). -/
theorem selectLatestCert_eq_max (certs : List CertRecord) :
    (selectLatestCert certs).map (·.not_after) =
      (certs.map (·.not_after)).max? := by
  unfold selectLatestCert
  cases hs : certs.mergeSort laterNotAfter with
  | nil =>
      have hp := List.mergeSort_perm certs laterNotAfter
      rw [hs] at hp
      have : certs = [] := hp.symm.eq_nil
      subst this
      simp
  | cons r rest =>
      have hp := List.mergeSort_perm certs laterNotAfter
      rw [hs] at hp
      have htrans : ∀ (a b c : CertRecord), laterNotAfter a b = true →
          laterNotAfter b c = true → laterNotAfter a c = true := by
        intro a b c hab hbc
        simp only [laterNotAfter, decide_eq_true_eq] at *
        omega
      have htotal : ∀ (a b : CertRecord),
          (laterNotAfter a b || laterNotAfter b a) = true := by
        intro a b
        simp only [laterNotAfter, Bool.or_eq_true, decide_eq_true_eq]
        omega
      have hsort := List.sorted_mergeSort htrans htotal certs
      rw [hs] at hsort
      have hrrest := (List.pairwise_cons.mp hsort).1
      have hr : r ∈ certs := hp.mem_iff.mp (List.mem_cons_self r rest)
      have hmax : ∀ x ∈ certs, x.not_after ≤ r.not_after := by
        intro x hx
        have hx' : x ∈ r :: rest := hp.mem_iff.mpr hx
        rcases List.mem_cons.mp hx' with rfl | hmem
        · exact le_refl _
        · have := hrrest x hmem
          simpa [laterNotAfter, decide_eq_true_eq] using this
      have hres : (certs.map (·.not_after)).max? = some r.not_after := by
        have anti : Std.Antisymm (fun (x1 x2 : Int) => x1 ≤ x2) :=
          ⟨fun h h' => le_antisymm h h'⟩
        rw [List.max?_eq_some_iff (fun a => le_refl a)
          (fun a b => max_choice a b) (fun a b c => max_le_iff)]
        constructor
        · exact List.mem_map.mpr ⟨r, hr, rfl⟩
        · intro b hb
          obtain ⟨x, hx, rfl⟩ := List.mem_map.mp hb
          exact hmax x hx
      rw [hres]
      rfl

/-- C5: when the exact-hostname query yields zero records and the
hostname has more than two labels, the cascade accumulates the records of
the root-domain query and of the `%.`-wildcard query; the certificate
expiry is the maximum `not_after` over the accumulated set, and is absent
exactly when that set is empty. -/
theorem cert_cascade (query : String → List CertRecord) (domain : String)
    (hdirect : query domain = [])
    (hsub : (splitDot domain.toList).length > 2) :
    cascadeCerts query domain =
      query (rootDomainOf domain) ++ query ("%." ++ rootDomainOf domain) ∧
    certExpiryOf query domain =
      ((query (rootDomainOf domain) ++
        query ("%." ++ rootDomainOf domain)).map (·.not_after)).max? ∧
    (certExpiryOf query domain = none ↔
      query (rootDomainOf domain) ++ query ("%." ++ rootDomainOf domain) = []) := by
  have h1 : cascadeCerts query domain =
      query (rootDomainOf domain) ++ query ("%." ++ rootDomainOf domain) := by
    unfold cascadeCerts
    rw [hdirect]
    rw [if_pos ⟨rfl, hsub⟩]
    cases hrc : query (rootDomainOf domain) <;>
      cases hwc : query ("%." ++ rootDomainOf domain) <;> simp_all
  have h2 : certExpiryOf query domain =
      ((query (rootDomainOf domain) ++
        query ("%." ++ rootDomainOf domain)).map (·.not_after)).max? := by
    unfold certExpiryOf
    rw [h1]
    by_cases hlen : (query (rootDomainOf domain) ++
        query ("%." ++ rootDomainOf domain)).length > 0
    · rw [if_pos hlen]
      exact selectLatestCert_eq_max _
    · rw [if_neg hlen]
      have : query (rootDomainOf domain) ++
          query ("%." ++ rootDomainOf domain) = [] := by
        cases h : query (rootDomainOf domain) ++
            query ("%." ++ rootDomainOf domain) with
        | nil => rfl
        | cons a l => rw [h] at hlen; simp at hlen
      rw [this]
      simp
  refine ⟨h1, h2, ?_⟩
  rw [h2]
  rw [List.max?_eq_none_iff]
  exact List.map_eq_nil_iff

/-- Witness for C5: the spec's concrete example — `sub.example.com` with
zero direct records, two records at `example.com` (expiries 100 and 200)
and one at `%.example.com` (expiry 300) — accumulates all three records
and selects expiry 300 (the claim instantiated and evaluated). -/
theorem cert_cascade_witness :
    cascadeCerts exampleCertQuery "sub.example.com" =
      [⟨100, "example.com"⟩, ⟨200, "www.example.com"⟩,
       ⟨300, "*.example.com"⟩] ∧
    certExpiryOf exampleCertQuery "sub.example.com" = some 300 := by
  have h := cert_cascade exampleCertQuery "sub.example.com" rfl (by decide)
  exact ⟨h.1.trans (by decide), h.2.1.trans (by decide)⟩

/-- C7: the `CheckResult` classification follows the §4.2 priority
order — non-success HTTP status → `HTTP <status>`; successful response
missing the configured keyword → a reason naming the keyword; a thrown
request → `status_code 0` with SSL / timeout / raw-message triage
(defaulting to `Network Error` for an empty message); otherwise success
with an empty reason.  `classifyProbe` is a total function, so no
exception escapes the probe boundary. -/
theorem classifyProbe_policy (status : Nat) (body msg : String)
    (kw : Option String) :
    (responseOk status = false →
      classifyProbe (.response status body) kw =
        ⟨status, true, "HTTP " ++ toString status⟩) ∧
    (∀ k, responseOk status = true → kw = some k →
      strIncludes body k = false →
      classifyProbe (.response status body) kw =
        ⟨status, true, "Keyword \"" ++ k ++ "\" not found"⟩) ∧
    (responseOk status = true →
      (∀ k, kw = some k → strIncludes body k = true) →
      classifyProbe (.response status body) kw = ⟨status, false, ""⟩) ∧
    ((strIncludes msg "handshake" || strIncludes msg "certificate" ||
      strIncludes msg "SSL" || strIncludes msg "TLS") = true →
      classifyProbe (.thrown msg) kw = ⟨0, true, "SSL Error: " ++ msg⟩) ∧
    ((strIncludes msg "handshake" || strIncludes msg "certificate" ||
      strIncludes msg "SSL" || strIncludes msg "TLS") = false →
      (strIncludes msg "time" || strIncludes msg "timeout") = true →
      classifyProbe (.thrown msg) kw = ⟨0, true, "Timeout"⟩) ∧
    ((strIncludes msg "handshake" || strIncludes msg "certificate" ||
      strIncludes msg "SSL" || strIncludes msg "TLS") = false →
      (strIncludes msg "time" || strIncludes msg "timeout") = false →
      classifyProbe (.thrown msg) kw =
        ⟨0, true, if msg.isEmpty then "Network Error" else msg⟩) := by
  refine ⟨fun h => ?_, fun k h1 h2 h3 => ?_, fun h1 h2 => ?_,
    fun h => ?_, fun h1 h2 => ?_, fun h1 h2 => ?_⟩
  · simp [classifyProbe, h]
  · subst h2
    simp [classifyProbe, h1, h3]
  · cases hk : kw with
    | none => simp [classifyProbe, h1]
    | some k => simp [classifyProbe, h1, h2 k hk]
  · simp [classifyProbe, h]
  · simp [classifyProbe, h1, h2]
  · simp [classifyProbe, h1, h2]

/-- Witness for C7: one concrete probe outcome per classification branch,
evaluated. -/
theorem classifyProbe_policy_witness :
    classifyProbe (.response 500 "") none = ⟨500, true, "HTTP 500"⟩ ∧
    classifyProbe (.response 200 "hello") (some "world") =
      ⟨200, true, "Keyword \"world\" not found"⟩ ∧
    classifyProbe (.response 200 "hello world") (some "world") =
      ⟨200, false, ""⟩ ∧
    classifyProbe (.thrown "SSL handshake failed") none =
      ⟨0, true, "SSL Error: SSL handshake failed"⟩ ∧
    classifyProbe (.thrown "connection timed out") none =
      ⟨0, true, "Timeout"⟩ ∧
    classifyProbe (.thrown "") none = ⟨0, true, "Network Error"⟩ := by
  refine ⟨(classifyProbe_policy 500 "" "" none).1 (by decide),
    (classifyProbe_policy 200 "hello" "" (some "world")).2.1 "world"
      (by decide) rfl (by decide),
    (classifyProbe_policy 200 "hello world" "" (some "world")).2.2.1
      (by decide) (fun k hk => by
        cases hk
        decide),
    (classifyProbe_policy 0 "" "SSL handshake failed" none).2.2.2.1
      (by decide),
    (classifyProbe_policy 0 "" "connection timed out" none).2.2.2.2.1
      (by decide) (by decide),
    ((classifyProbe_policy 0 "" "" none).2.2.2.2.2 (by decide)
      (by decide)).trans (by decide)⟩

/-- C8: `updateDomainCertInfo` writes to the persisted target iff at
least one of the certificate expiry or domain expiry was found; when both
lookups come back empty the stored metadata is left untouched.  Every
lookup or parse failure is modelled by the oracles yielding no data
(`fetchCerts` returns `[]`, the RDAP input is `none`), and the embedding
is a total function — the source wraps the whole body in `try`/`catch`,
so it never raises. -/
theorem updateDomainCertInfo_writes_iff (query : String → List CertRecord)
    (rdap : Option (List RdapEvent)) (domain : String) (prior : TargetMeta) :
    ((updateDomainCertInfo query rdap domain prior).2 = true ↔
      (certExpiryOf query domain).isSome = true ∨
      (domainExpiryOf rdap).isSome = true) ∧
    ((updateDomainCertInfo query rdap domain prior).2 = false →
      (updateDomainCertInfo query rdap domain prior).1 = prior) := by
  unfold updateDomainCertInfo updateDomainCertInfoWrite
  split <;> rename_i hif <;>
    simp_all [Bool.or_eq_true]

/-- Witness for C8: with both lookups empty, no write happens and the
previously stored expiry values survive. -/
theorem updateDomainCertInfo_writes_iff_witness :
    (updateDomainCertInfo (fun _ => []) none "example.com"
      ⟨some 11, some 22⟩).2 = false ∧
    (updateDomainCertInfo (fun _ => []) none "example.com"
      ⟨some 11, some 22⟩).1 = ⟨some 11, some 22⟩ := by
  have h := updateDomainCertInfo_writes_iff (fun _ => []) none "example.com"
    ⟨some 11, some 22⟩
  have hf : (updateDomainCertInfo (fun _ => []) none "example.com"
      ⟨some 11, some 22⟩).2 = false := by decide
  exact ⟨hf, h.2 hf⟩

/-- C9: the `sign` parameter produced by `sendDingTalkAlert` is a pure
function of `secret` and `timestamp` (hence deterministic) and equals the
documented pipeline — HMAC-SHA256 of `timestamp + "\n" + secret` keyed by
the UTF-8 encoding of `secret`, Base64-encoded, then percent-encoded —
and the webhook URL carries `access_token`, `timestamp` and this `sign`
as query parameters on the fixed base endpoint. -/
theorem dingTalkSign_documented (accessToken secret : String) (ts : Int) :
    dingTalkSign secret ts = specSignPipeline secret ts ∧
    dingTalkWebhookUrl accessToken secret ts =
      DINGTALK_WEBHOOK_BASE ++ "?access_token=" ++ accessToken ++
        "&timestamp=" ++ toString ts ++ "&sign=" ++
        specSignPipeline secret ts :=
  ⟨rfl, rfl⟩

/-- C10: when exactly one of the two expiry values is found,
`updateDomainCertInfo`'s single UPDATE sets both columns, overwriting the
previously stored value of the other column with NULL — for every prior
stored state; prior values survive only when both lookups are empty. -/
theorem updateDomainCertInfo_partial_overwrite (prior : TargetMeta)
    (c d : Int) :
    (updateDomainCertInfoWrite prior (some c) none).1 =
      ⟨some c, none⟩ ∧
    (updateDomainCertInfoWrite prior (some c) none).2 = true ∧
    (updateDomainCertInfoWrite prior none (some d)).1 =
      ⟨none, some d⟩ ∧
    (updateDomainCertInfoWrite prior none (some d)).2 = true ∧
    (updateDomainCertInfoWrite prior none none).1 = prior :=
  ⟨rfl, rfl, rfl, rfl, rfl⟩

end UptimeMonitor
